import Mathlib

/-!
Verification of the TriggersAPI event-ingestion service against its design
specification. The definitions below are shallow embeddings of the Python
source (src/src and src/.deploy/src — the deployed database module is the
one in .deploy, which is the only copy defining the rate-limit and webhook
store operations that the middleware and endpoints import). DynamoDB, the
durable store, is modelled by its documented semantics: get/put/delete by
primary key, conditional writes that raise ConditionalCheckFailedException
when the condition evaluates false (including when the condition references
an attribute of an item that does not exist), scans and queries that return
at most `Limit` *examined* items per page together with a continuation key.
-/

namespace TriggersAPI

/-! ## JSON values

Payloads, metadata and DynamoDB continuation keys are JSON values. The type
is mutual (rather than nested lists) so equality is derivable. Object keys
keep insertion order, as Python dicts do. -/

mutual

inductive Json where
  | null
  | bool (b : Bool)
  | num (n : Int)
  | str (s : String)
  | arr (xs : JsonArr)
  | obj (kvs : JsonObj)
deriving DecidableEq

inductive JsonArr where
  | nil
  | cons (hd : Json) (tl : JsonArr)
deriving DecidableEq

inductive JsonObj where
  | nil
  | cons (key : String) (val : Json) (tl : JsonObj)
deriving DecidableEq

end

/-- Look up a key in a JSON object (first occurrence, like Python dicts
which cannot actually repeat keys). -/
def JsonObj.find : JsonObj → String → Option Json
  | .nil, _ => none
  | .cons k v tl, key => if k = key then some v else tl.find key

/-- Hex digit for a nibble, lower case. -/
def hexChar (n : Nat) : Char :=
  if n < 10 then Char.ofNat (48 + n) else Char.ofNat (87 + n)

/-- Four-hex-digit escape body for a code unit, as in Python's \uXXXX. -/
def u16Hex (n : Nat) : List Char :=
  [hexChar (n / 4096 % 16), hexChar (n / 256 % 16), hexChar (n / 16 % 16), hexChar (n % 16)]

/-- Escape one character the way Python's json.dumps (ensure_ascii=True,
its default) does: short escapes for the common control characters, \uXXXX
for other controls and for all non-ASCII characters (surrogate pairs above
the BMP), everything else verbatim. -/
def jsonEscapeChar (c : Char) : List Char :=
  let n := c.toNat
  if n = 34 then ['\\', '"']
  else if n = 92 then ['\\', '\\']
  else if n = 8 then ['\\', 'b']
  else if n = 12 then ['\\', 'f']
  else if n = 10 then ['\\', 'n']
  else if n = 13 then ['\\', 'r']
  else if n = 9 then ['\\', 't']
  else if n < 32 then '\\' :: 'u' :: u16Hex n
  else if n < 127 then [c]
  else if n < 65536 then '\\' :: 'u' :: u16Hex n
  else
    let m := n - 65536
    ('\\' :: 'u' :: u16Hex (55296 + m / 1024)) ++ ('\\' :: 'u' :: u16Hex (56320 + m % 1024))

/-- JSON string literal as Python's json.dumps renders it. -/
def jsonQuote (s : String) : List Char :=
  '"' :: s.data.flatMap jsonEscapeChar ++ ['"']

/-- Decimal digits of a natural number. -/
def natDigits (n : Nat) : List Char :=
  (Nat.toDigits 10 n)

/-- Python repr of an integer. -/
def intChars (n : Int) : List Char :=
  if n < 0 then '-' :: natDigits n.natAbs else natDigits n.natAbs

mutual

/-- Python's json.dumps with its default separators (", " between items,
": " after keys) and default ensure_ascii=True, as character list. -/
def jsonDumpsChars : Json → List Char
  | .null => "null".data
  | .bool true => "true".data
  | .bool false => "false".data
  | .num n => intChars n
  | .str s => jsonQuote s
  | .arr xs => '[' :: jsonArrChars xs ++ [']']
  | .obj kvs => '{' :: jsonObjChars kvs ++ ['}']

def jsonArrChars : JsonArr → List Char
  | .nil => []
  | .cons x .nil => jsonDumpsChars x
  | .cons x (.cons y tl) => jsonDumpsChars x ++ ',' :: ' ' :: jsonArrChars (.cons y tl)

def jsonObjChars : JsonObj → List Char
  | .nil => []
  | .cons k v .nil => jsonQuote k ++ ':' :: ' ' :: jsonDumpsChars v
  | .cons k v (.cons k2 v2 tl) =>
      jsonQuote k ++ ':' :: ' ' :: jsonDumpsChars v ++ ',' :: ' ' :: jsonObjChars (.cons k2 v2 tl)

end

/-- Python json.dumps with default options, as a string. -/
def jsonDumps (j : Json) : String := String.mk (jsonDumpsChars j)

/-! ## Bytes, UTF-8 and hex

Byte strings are lists of naturals below 256. These model Python bytes
objects: str.encode() is UTF-8 encoding, bytes.decode() is UTF-8 decoding
(which raises UnicodeDecodeError on invalid data). -/

/-- UTF-8 encoding of one Unicode code point (Python str.encode()). -/
def utf8EncodeChar (c : Char) : List Nat :=
  let n := c.toNat
  if n < 128 then [n]
  else if n < 2048 then [192 + n / 64, 128 + n % 64]
  else if n < 65536 then [224 + n / 4096, 128 + n / 64 % 64, 128 + n % 64]
  else [240 + n / 262144, 128 + n / 4096 % 64, 128 + n / 64 % 64, 128 + n % 64]

/-- UTF-8 encoding of a string (Python str.encode()). -/
def utf8Encode (s : String) : List Nat := s.data.flatMap utf8EncodeChar

/-- Whether a natural is a UTF-8 continuation byte (10xxxxxx). -/
def isCont (b : Nat) : Bool := 128 ≤ b && b < 192

/-- Fuel-indexed UTF-8 decoder core. Returns none on malformed input,
mirroring Python's bytes.decode() raising UnicodeDecodeError. Overlong
encodings and code points in the surrogate range or above U+10FFFF are
rejected, as CPython rejects them. -/
def utf8DecodeFuel : Nat → List Nat → Option (List Char)
  | 0, [] => some []
  | 0, _ :: _ => none
  | _ + 1, [] => some []
  | fuel + 1, b :: bs =>
    if b < 128 then
      (utf8DecodeFuel fuel bs).map (Char.ofNat b :: ·)
    else if b < 192 then none
    else if b < 224 then
      match bs with
      | b2 :: rest =>
        if isCont b2 then
          let n := (b - 192) * 64 + (b2 - 128)
          if n < 128 then none else (utf8DecodeFuel fuel rest).map (Char.ofNat n :: ·)
        else none
      | _ => none
    else if b < 240 then
      match bs with
      | b2 :: b3 :: rest =>
        if isCont b2 && isCont b3 then
          let n := (b - 224) * 4096 + (b2 - 128) * 64 + (b3 - 128)
          if n < 2048 || (55296 ≤ n && n < 57344) then none
          else (utf8DecodeFuel fuel rest).map (Char.ofNat n :: ·)
        else none
      | _ => none
    else if b < 245 then
      match bs with
      | b2 :: b3 :: b4 :: rest =>
        if isCont b2 && isCont b3 && isCont b4 then
          let n := (b - 240) * 262144 + (b2 - 128) * 4096 + (b3 - 128) * 64 + (b4 - 128)
          if n < 65536 || 1114112 ≤ n then none
          else (utf8DecodeFuel fuel rest).map (Char.ofNat n :: ·)
        else none
      | _ => none
    else none

/-- UTF-8 decoding of a byte string; none models UnicodeDecodeError. -/
def utf8Decode (bs : List Nat) : Option String :=
  (utf8DecodeFuel bs.length bs).map String.mk

/-- Big-endian byte rendering of a natural on a fixed width. -/
def beBytes : Nat → Nat → List Nat
  | 0, _ => []
  | n + 1, x => beBytes n (x / 256) ++ [x % 256]

/-- Hex rendering of a byte string, lower case — Python's .hexdigest(). -/
def bytesToHex (bs : List Nat) : String :=
  String.mk (bs.flatMap (fun b => [hexChar (b / 16), hexChar (b % 16)]))

/-! ## Base64 (RFC 4648 standard alphabet), with Python semantics

base64.b64encode produces the usual padded encoding. base64.b64decode is
called by the codec with validate=False, so characters outside the
alphabet are discarded before decoding, and a leftover length that is not
a multiple of four raises binascii.Error (a ValueError). -/

/-- The standard base64 alphabet as a character list. -/
def b64Alphabet : List Char :=
  "ABCDEFGHIJKLMNOPQRSTUVWXYZabcdefghijklmnopqrstuvwxyz0123456789+/".data

/-- Value of a base64 alphabet character, 64 for '=' padding, none for
anything else. -/
def b64Value (c : Char) : Option Nat :=
  let n := c.toNat
  if 65 ≤ n && n ≤ 90 then some (n - 65)
  else if 97 ≤ n && n ≤ 122 then some (n - 71)
  else if 48 ≤ n && n ≤ 57 then some (n + 4)
  else if c = '+' then some 62
  else if c = '/' then some 63
  else if c = '=' then some 64
  else none

/-- Encode a 3-byte group (or a final 1- or 2-byte group, padded). -/
def b64EncodeGroup : List Nat → List Char
  | [a] =>
      [b64Alphabet.getD (a / 4) '?', b64Alphabet.getD (a % 4 * 16) '?', '=', '=']
  | [a, b] =>
      [b64Alphabet.getD (a / 4) '?', b64Alphabet.getD (a % 4 * 16 + b / 16) '?',
       b64Alphabet.getD (b % 16 * 4) '?', '=']
  | [a, b, c] =>
      [b64Alphabet.getD (a / 4) '?', b64Alphabet.getD (a % 4 * 16 + b / 16) '?',
       b64Alphabet.getD (b % 16 * 4 + c / 64) '?', b64Alphabet.getD (c % 64) '?']
  | _ => []

/-- Fuel-indexed base64 encoder over 3-byte groups. -/
def b64EncodeFuel : Nat → List Nat → List Char
  | 0, _ => []
  | _ + 1, [] => []
  | fuel + 1, b :: bs =>
      b64EncodeGroup ((b :: bs).take 3) ++ b64EncodeFuel fuel ((b :: bs).drop 3)

/-- Python base64.b64encode of a byte string, as a string. -/
def b64Encode (bs : List Nat) : String :=
  String.mk (b64EncodeFuel bs.length bs)

/-- Decode a 4-character group of base64 values (64 = '='). Padding is
only accepted in the final group positions, as binascii accepts it. -/
def b64DecodeGroup (a b c d : Nat) : Option (List Nat) :=
  if a = 64 || b = 64 then none
  else if c = 64 then
    if d = 64 then some [a * 4 + b / 16] else none
  else if d = 64 then some [a * 4 + b / 16, b % 16 * 16 + c / 4]
  else some [a * 4 + b / 16, b % 16 * 16 + c / 4, c % 4 * 64 + d]

/-- Fuel-indexed base64 decoder over 4-character groups of values. -/
def b64DecodeFuel : Nat → List Nat → Option (List Nat)
  | 0, [] => some []
  | 0, _ :: _ => none
  | _ + 1, [] => some []
  | fuel + 1, a :: b :: c :: d :: rest =>
      match b64DecodeGroup a b c d with
      | some bytes => (b64DecodeFuel fuel rest).map (bytes ++ ·)
      | none => none
  | _ + 1, _ => none

/-- Python base64.b64decode(s) with validate=False: encode the str as
ASCII (UnicodeEncodeError — a ValueError — if any character is
non-ASCII), discard characters outside the alphabet, then decode;
a leftover length not divisible by four is binascii.Error. none models
any of those ValueError outcomes. -/
def b64Decode (s : String) : Option (List Nat) :=
  if s.data.all (fun c => c.toNat < 128) then
    let vals := s.data.filterMap b64Value
    if vals.length % 4 = 0 then b64DecodeFuel vals.length vals else none
  else none

/-! ## SHA-256 and HMAC-SHA256

A faithful model of hashlib.sha256 and hmac.new(key, msg,
hashlib.sha256), used by the webhook signing path. Words are naturals
reduced modulo 2^32. All recursion is structural so that concrete
signatures evaluate inside the kernel. -/

/-- Truncation to a 32-bit word. -/
def w32 (n : Nat) : Nat := n % 4294967296

/-- Right rotation of a 32-bit word. -/
def rotr32 (x n : Nat) : Nat := w32 ((x >>> n) ||| (x <<< (32 - n)))

/-- The 64 SHA-256 round constants, in decimal. -/
def sha256K : List Nat :=
  [1116352408, 1899447441, 3049323471, 3921009573, 961987163, 1508970993,
   2453635748, 2870763221, 3624381080, 310598401, 607225278, 1426881987,
   1925078388, 2162078206, 2614888103, 3248222580, 3835390401, 4022224774,
   264347078, 604807628, 770255983, 1249150122, 1555081692, 1996064986,
   2554220882, 2821834349, 2952996808, 3210313671, 3336571891, 3584528711,
   113926993, 338241895, 666307205, 773529912, 1294757372, 1396182291,
   1695183700, 1986661051, 2177026350, 2456956037, 2730485921, 2820302411,
   3259730800, 3345764771, 3516065817, 3600352804, 4094571909, 275423344,
   430227734, 506948616, 659060556, 883997877, 958139571, 1322822218,
   1537002063, 1747873779, 1955562222, 2024104815, 2227730452, 2361852424,
   2428436474, 2756734187, 3204031479, 3329325298]

/-- The SHA-256 initial hash state, in decimal. -/
def sha256H0 : List Nat :=
  [1779033703, 3144134277, 1013904242, 2773480762, 1359893119, 2600822924,
   528734635, 1541459225]

/-- Big-endian packing of bytes into 32-bit words. -/
def bytesToWords : List Nat → List Nat
  | a :: b :: c :: d :: rest => (((a * 256 + b) * 256 + c) * 256 + d) :: bytesToWords rest
  | _ => []

/-- SHA-256 padding: a 0x80 byte, zeros to 56 mod 64, and the bit length
as eight big-endian bytes. -/
def sha256Pad (msg : List Nat) : List Nat :=
  let padZeros := (119 - msg.length % 64) % 64
  msg ++ [0x80] ++ List.replicate padZeros 0 ++ beBytes 8 (msg.length * 8)

/-- Extend 16 message words to the 64-word schedule. -/
def sha256Schedule (ws : Array Nat) : Array Nat :=
  (List.range 48).foldl (fun arr i =>
    let j := i + 16
    let x15 := arr.getD (j - 15) 0
    let x2 := arr.getD (j - 2) 0
    let s0 := rotr32 x15 7 ^^^ rotr32 x15 18 ^^^ (x15 >>> 3)
    let s1 := rotr32 x2 17 ^^^ rotr32 x2 19 ^^^ (x2 >>> 10)
    arr.push (w32 (arr.getD (j - 16) 0 + s0 + arr.getD (j - 7) 0 + s1))) ws

/-- The eight SHA-256 working variables. -/
structure Sha256State where
  a : Nat
  b : Nat
  c : Nat
  d : Nat
  e : Nat
  f : Nat
  g : Nat
  h : Nat

/-- One SHA-256 round. -/
def sha256Round (st : Sha256State) (ki wi : Nat) : Sha256State :=
  let bigS1 := rotr32 st.e 6 ^^^ rotr32 st.e 11 ^^^ rotr32 st.e 25
  let ch := (st.e &&& st.f) ^^^ ((st.e ^^^ 4294967295) &&& st.g)
  let temp1 := w32 (st.h + bigS1 + ch + ki + wi)
  let bigS0 := rotr32 st.a 2 ^^^ rotr32 st.a 13 ^^^ rotr32 st.a 22
  let maj := (st.a &&& st.b) ^^^ (st.a &&& st.c) ^^^ (st.b &&& st.c)
  let temp2 := w32 (bigS0 + maj)
  ⟨w32 (temp1 + temp2), st.a, st.b, st.c, w32 (st.d + temp1), st.e, st.f, st.g⟩

/-- Compress one 64-byte block into the running hash (eight words). -/
def sha256Compress (h : List Nat) (block : List Nat) : List Nat :=
  let ws := sha256Schedule (bytesToWords block).toArray
  let init : Sha256State :=
    ⟨h.getD 0 0, h.getD 1 0, h.getD 2 0, h.getD 3 0, h.getD 4 0, h.getD 5 0, h.getD 6 0, h.getD 7 0⟩
  let st := (List.range 64).foldl (fun st i => sha256Round st (sha256K.getD i 0) (ws.getD i 0)) init
  [w32 (h.getD 0 0 + st.a), w32 (h.getD 1 0 + st.b), w32 (h.getD 2 0 + st.c), w32 (h.getD 3 0 + st.d),
   w32 (h.getD 4 0 + st.e), w32 (h.getD 5 0 + st.f), w32 (h.getD 6 0 + st.g), w32 (h.getD 7 0 + st.h)]

/-- Fuel-indexed split into 64-byte blocks (fuel bounds the block count,
keeping the recursion structural so the kernel can evaluate it). -/
def chunks64Fuel : Nat → List Nat → List (List Nat)
  | 0, _ => []
  | _ + 1, [] => []
  | fuel + 1, b :: bs => ((b :: bs).take 64) :: chunks64Fuel fuel ((b :: bs).drop 64)

/-- Split a byte string into 64-byte blocks. -/
def chunks64 (bs : List Nat) : List (List Nat) := chunks64Fuel bs.length bs

/-- SHA-256 digest of a byte string, as 32 bytes (hashlib.sha256). -/
def sha256 (msg : List Nat) : List Nat :=
  ((chunks64 (sha256Pad msg)).foldl sha256Compress sha256H0).flatMap (beBytes 4)

/-- HMAC-SHA256 digest (hmac.new(key, msg, hashlib.sha256).digest()):
keys longer than the 64-byte block are hashed first, then zero-padded and
xored with the inner and outer pads. -/
def hmacSha256 (key msg : List Nat) : List Nat :=
  let k0 := if key.length > 64 then sha256 key else key
  let k := k0 ++ List.replicate (64 - k0.length) 0
  let ipadKey := k.map (fun b => b ^^^ 0x36)
  let opadKey := k.map (fun b => b ^^^ 0x5c)
  sha256 (opadKey ++ sha256 (ipadKey ++ msg))

/-! ## JSON parsing

A model of Python's json.loads for the cursor codec. It accepts objects,
arrays, strings, integers, true, false and null; a JSON number with a
fraction or exponent (which json.loads would read as a float) is rejected
by this model — the continuation keys this system encodes contain only
strings, so the restriction is invisible to the code under verification.
none models json.JSONDecodeError (a ValueError). -/

/-- JSON whitespace skipper. -/
def skipWs : List Char → List Char
  | c :: cs => if c = ' ' || c = '\t' || c = '\n' || c = '\r' then skipWs cs else c :: cs
  | [] => []

/-- Value of a hex digit character. -/
def hexVal (c : Char) : Option Nat :=
  let n := c.toNat
  if 48 ≤ n && n ≤ 57 then some (n - 48)
  else if 97 ≤ n && n ≤ 102 then some (n - 87)
  else if 65 ≤ n && n ≤ 70 then some (n - 55)
  else none

/-- Four hex digits as a code unit. -/
def parse4Hex : List Char → Option (Nat × List Char)
  | a :: b :: c :: d :: rest => do
      let va ← hexVal a
      let vb ← hexVal b
      let vc ← hexVal c
      let vd ← hexVal d
      pure (va * 4096 + vb * 256 + vc * 16 + vd, rest)
  | _ => none

/-- Fuel-indexed JSON string body parser (after the opening quote),
handling the escape sequences json.loads accepts, surrogate pairs
included. -/
def parseStrFuel : Nat → List Char → Option (List Char × List Char)
  | 0, _ => none
  | _ + 1, [] => none
  | fuel + 1, c :: cs =>
    if c = '"' then some ([], cs)
    else if c = '\\' then
      match cs with
      | [] => none
      | e :: cs2 =>
        if e = 'u' then
          match parse4Hex cs2 with
          | none => none
          | some (n, cs3) =>
            if 55296 ≤ n && n < 56320 then
              match cs3 with
              | '\\' :: 'u' :: cs4 =>
                match parse4Hex cs4 with
                | some (n2, cs5) =>
                  if 56320 ≤ n2 && n2 < 57344 then
                    (parseStrFuel fuel cs5).map (fun (tl, rest) =>
                      (Char.ofNat (65536 + (n - 55296) * 1024 + (n2 - 56320)) :: tl, rest))
                  else none
                | none => none
              | _ => none
            else (parseStrFuel fuel cs3).map (fun (tl, rest) => (Char.ofNat n :: tl, rest))
        else
          let dec : Option Char :=
            if e = '"' then some '"'
            else if e = '\\' then some '\\'
            else if e = '/' then some '/'
            else if e = 'b' then some (Char.ofNat 8)
            else if e = 'f' then some (Char.ofNat 12)
            else if e = 'n' then some '\n'
            else if e = 'r' then some '\r'
            else if e = 't' then some '\t'
            else none
          match dec with
          | some d => (parseStrFuel fuel cs2).map (fun (tl, rest) => (d :: tl, rest))
          | none => none
    else if c.toNat < 32 then none
    else (parseStrFuel fuel cs).map (fun (tl, rest) => (c :: tl, rest))

/-- Digit run collector. -/
def takeDigits : List Char → List Char × List Char
  | c :: cs =>
      if 48 ≤ c.toNat && c.toNat ≤ 57 then
        let (ds, rest) := takeDigits cs
        (c :: ds, rest)
      else ([], c :: cs)
  | [] => ([], [])

/-- Natural number value of a digit run. -/
def digitsToNat (ds : List Char) : Nat :=
  ds.foldl (fun acc c => acc * 10 + (c.toNat - 48)) 0

/-- Integer literal parser (sign and digits, leading zeros rejected as
json.loads rejects them; fractions and exponents are outside the model). -/
def parseInt : List Char → Option (Int × List Char)
  | '-' :: cs =>
      (parseInt cs).bind (fun (n, rest) => if n < 0 then none else some (-n, rest))
  | cs =>
      match takeDigits cs with
      | ([], _) => none
      | (d :: ds, rest) =>
        if d = '0' && ds ≠ [] then none
        else some (Int.ofNat (digitsToNat (d :: ds)), rest)

mutual

/-- Fuel-indexed JSON value parser. -/
def parseValueFuel : Nat → List Char → Option (Json × List Char)
  | 0, _ => none
  | fuel + 1, input =>
    match skipWs input with
    | [] => none
    | c :: cs =>
      if c = '{' then
        match skipWs cs with
        | '}' :: rest => some (.obj .nil, rest)
        | cs2 => (parseObjFuel fuel cs2).map (fun (o, rest) => (Json.obj o, rest))
      else if c = '[' then
        match skipWs cs with
        | ']' :: rest => some (.arr .nil, rest)
        | cs2 => (parseArrFuel fuel cs2).map (fun (a, rest) => (Json.arr a, rest))
      else if c = '"' then
        (parseStrFuel (cs.length + 1) cs).map (fun (body, rest) => (Json.str (String.mk body), rest))
      else
        match c :: cs with
        | 't' :: 'r' :: 'u' :: 'e' :: rest => some (.bool true, rest)
        | 'f' :: 'a' :: 'l' :: 's' :: 'e' :: rest => some (.bool false, rest)
        | 'n' :: 'u' :: 'l' :: 'l' :: rest => some (.null, rest)
        | cs3 => (parseInt cs3).map (fun (n, rest) => (Json.num n, rest))

/-- Fuel-indexed parser for the members of a non-empty JSON object. -/
def parseObjFuel : Nat → List Char → Option (JsonObj × List Char)
  | 0, _ => none
  | fuel + 1, input =>
    match skipWs input with
    | '"' :: cs =>
      match parseStrFuel (cs.length + 1) cs with
      | none => none
      | some (key, afterKey) =>
        match skipWs afterKey with
        | ':' :: afterColon =>
          match parseValueFuel fuel afterColon with
          | none => none
          | some (v, afterVal) =>
            match skipWs afterVal with
            | ',' :: afterComma =>
                (parseObjFuel fuel afterComma).map
                  (fun (tl, rest) => (JsonObj.cons (String.mk key) v tl, rest))
            | '}' :: rest => some (.cons (String.mk key) v .nil, rest)
            | _ => none
        | _ => none
    | _ => none

/-- Fuel-indexed parser for the elements of a non-empty JSON array. -/
def parseArrFuel : Nat → List Char → Option (JsonArr × List Char)
  | 0, _ => none
  | fuel + 1, input =>
    match parseValueFuel fuel input with
    | none => none
    | some (v, afterVal) =>
      match skipWs afterVal with
      | ',' :: afterComma =>
          (parseArrFuel fuel afterComma).map (fun (tl, rest) => (JsonArr.cons v tl, rest))
      | ']' :: rest => some (.cons v .nil, rest)
      | _ => none

end

/-- Python json.loads: parse one JSON value and require only whitespace
after it. none models json.JSONDecodeError. -/
def jsonLoads (s : String) : Option Json :=
  match parseValueFuel (s.data.length + 1) s.data with
  | some (v, rest) => if skipWs rest = [] then some v else none
  | none => none

/-! ## The durable store and database.py

The events table is keyed by (event_id, created_at); the idempotency
table by idempotency_key. A store state is the two tables in scan order
plus whether the event-id GSI exists (the get_event fallback is for
tables created before that index migration). DynamoDB TTL attributes are
carried as data; expiry is a background process outside these
single-operation semantics. -/

/-- An item of the events table. -/
structure EventRec where
  event_id : String
  created_at : String
  source : String
  event_type : String
  payload : JsonObj
  status : String
  acknowledged_at : Option String
  metadata : Option JsonObj
  ttl : Nat
deriving DecidableEq

/-- An item of the idempotency table. -/
structure IdemRec where
  idempotency_key : String
  event_id : String
  created_at : String
  ttl : Nat
deriving DecidableEq

/-- The durable store state. -/
structure Store where
  events : List EventRec
  idem : List IdemRec
  gsiAvailable : Bool
deriving DecidableEq

/-- DynamoDB put_item on the events table: replace the item with the same
primary key if one exists, insert otherwise. -/
def putEventItem (l : List EventRec) (e : EventRec) : List EventRec :=
  if l.any (fun r => r.event_id == e.event_id && r.created_at == e.created_at) then
    l.map (fun r => if r.event_id == e.event_id && r.created_at == e.created_at then e else r)
  else l ++ [e]

/-- database.check_idempotency_key: get_item on the idempotency table,
returning the associated event_id when the key exists. -/
def check_idempotency_key (s : Store) (idempotency_key : String) : Option String :=
  (s.idem.find? (fun r => r.idempotency_key == idempotency_key)).map (·.event_id)

/-- database.store_idempotency_key: conditional put_item with
attribute_not_exists(idempotency_key); False when the key already exists
(the create-if-absent race), in which case nothing is written. -/
def store_idempotency_key (s : Store) (idempotency_key event_id created_at : String)
    (ttl : Nat) : Bool × Store :=
  if s.idem.any (fun r => r.idempotency_key == idempotency_key) then (false, s)
  else (true, { s with idem := s.idem ++ [⟨idempotency_key, event_id, created_at, ttl⟩] })

/-- Query on the event-id-index GSI with Limit=1: the items of the index
with the given partition key, truncated to one. -/
def gsiQueryEventId (l : List EventRec) (event_id : String) : List EventRec :=
  (l.filter (fun r => r.event_id == event_id)).take 1

/-- One iteration page of the get_event fallback scan: DynamoDB scan with
Limit=100 examines up to 100 items, applies the event_id filter to those,
and reports a continuation key exactly when items remain beyond the 100
examined. The fuel bounds the page count; the wrapper supplies enough for
the whole table, so the loop runs until a match or table exhaustion. -/
def scanPagesFuel : Nat → List EventRec → String → Option EventRec
  | 0, _, _ => none
  | fuel + 1, evs, event_id =>
    match (evs.take 100).filter (fun r => r.event_id == event_id) with
    | r :: _ => some r
    | [] => if evs.length ≤ 100 then none else scanPagesFuel fuel (evs.drop 100) event_id

/-- The while-loop of get_event's scan fallback, started at the beginning
of the table. -/
def scanForEvent (evs : List EventRec) (event_id : String) : Option EventRec :=
  scanPagesFuel (evs.length + 1) evs event_id

/-- database.get_event (the deployed version): direct get_item when
created_at is supplied; otherwise query the event-id GSI (Limit 1) and,
when that index is unavailable, page a consistent scan through the whole
table. -/
def get_event (s : Store) (event_id : String) (created_at : Option String) : Option EventRec :=
  match created_at with
  | some cat => s.events.find? (fun r => r.event_id == event_id && r.created_at == cat)
  | none =>
    if s.gsiAvailable then (gsiQueryEventId s.events event_id).head?
    else scanForEvent s.events event_id

/-- Python truthiness of the optional idempotency_key argument: None and
the empty string are both falsy in `if idempotency_key:`. -/
def truthyStr : Option String → Option String
  | some s => if s = "" then none else some s
  | none => none

/-- Python truthiness of the optional metadata dict: None and the empty
dict are both falsy in `if metadata:`. -/
def truthyObj : Option JsonObj → Option JsonObj
  | some m => if m = JsonObj.nil then none else some m
  | none => none

/-- The event item create_event writes: a fresh UUID, the current ISO
timestamp, status pending, a 7-day TTL, and the metadata attribute only
when metadata is truthy. -/
def mkEventRec (source event_type : String) (payload : JsonObj) (metadata : Option JsonObj)
    (newId nowIso : String) (nowEpoch : Nat) : EventRec :=
  { event_id := newId, created_at := nowIso, source := source, event_type := event_type,
    payload := payload, status := "pending", acknowledged_at := none,
    metadata := truthyObj metadata, ttl := nowEpoch + 7 * 24 * 60 * 60 }

/-- database.create_event. The generated UUID (newId), ISO timestamp
(nowIso) and epoch time (nowEpoch) are explicit inputs. With a truthy
idempotency key whose ledger entry resolves to an existing event, that
event is returned and nothing is written; otherwise a new event is
written and the key (when given) is recorded with a 24-hour TTL by a
create-if-absent write whose failure is ignored. -/
def create_event (s : Store) (source event_type : String) (payload : JsonObj)
    (metadata : Option JsonObj) (idempotency_key : Option String)
    (newId nowIso : String) (nowEpoch : Nat) : EventRec × Store :=
  let keyOpt := truthyStr idempotency_key
  let hit : Option EventRec :=
    match keyOpt with
    | some k =>
      match check_idempotency_key s k with
      | some eid => get_event s eid none
      | none => none
    | none => none
  match hit with
  | some e => (e, s)
  | none =>
    let e := mkEventRec source event_type payload metadata newId nowIso nowEpoch
    let s1 := { s with events := putEventItem s.events e }
    let s2 :=
      match keyOpt with
      | some k => (store_idempotency_key s1 k newId nowIso (nowEpoch + 24 * 60 * 60)).2
      | none => s1
    (e, s2)

/-- database.acknowledge_event: read the event to learn its composite
key, then a conditional update_item (condition: status = pending) that
sets status acknowledged and acknowledged_at, returning ALL_NEW; None
when the event is missing or the condition fails
(ConditionalCheckFailedException). The conditional update is the atomic
step; it re-checks the live item, not the snapshot read earlier. -/
def acknowledge_event (s : Store) (event_id ackTime : String) : Option EventRec × Store :=
  match get_event s event_id none with
  | none => (none, s)
  | some e =>
    match s.events.find? (fun r => r.event_id == event_id && r.created_at == e.created_at) with
    | some row =>
      if row.status == "pending" then
        let e' := { row with status := "acknowledged", acknowledged_at := some ackTime }
        let evs' := s.events.map
          (fun r => if r.event_id == event_id && r.created_at == e.created_at then e' else r)
        (some e', { s with events := evs' })
      else (none, s)
    | none => (none, s)

/-- database.delete_event: read the event to learn its composite key;
a missing event returns True with no write (idempotent), otherwise
delete_item by the composite key (unconditional, so it also returns
True). -/
def delete_event (s : Store) (event_id : String) : Bool × Store :=
  match get_event s event_id none with
  | none => (true, s)
  | some e =>
    let evs' := s.events.filter
      (fun r => !(r.event_id == event_id && r.created_at == e.created_at))
    (true, { s with events := evs' })

/-- Outcome of POST /events/{id}/ack as the endpoint maps it. -/
inductive AckOutcome where
  | ok (event : EventRec)
  | notFound
  | conflict
deriving DecidableEq

/-- endpoints.events.acknowledge_event_endpoint: acknowledge, and when
that returns None re-read the event to distinguish 404 (missing) from
409 (exists but no longer pending — ConflictError). -/
def acknowledge_event_endpoint (s : Store) (event_id ackTime : String) : AckOutcome × Store :=
  match acknowledge_event s event_id ackTime with
  | (some e', s') => (.ok e', s')
  | (none, s') =>
    match get_event s' event_id none with
    | none => (.notFound, s')
    | some _ => (.conflict, s')

/-- endpoints.events.delete_event_endpoint: delete and always respond
HTTP 200, ignoring the boolean from delete_event. -/
def delete_event_endpoint (s : Store) (event_id : String) : Nat × Store :=
  (200, (delete_event s event_id).2)

/-- A sequence of n acknowledge calls for the same event applied one
after another — the serialization of n concurrent callers, since the
conditional update is the single atomic step of each call. -/
def ackCalls : Nat → Store → String → String → List AckOutcome × Store
  | 0, s, _, _ => ([], s)
  | n + 1, s, event_id, ackTime =>
    let (r, s') := acknowledge_event_endpoint s event_id ackTime
    let (rs, s'') := ackCalls n s' event_id ackTime
    (r :: rs, s'')

/-! ## The rate limiter

database.check_rate_limit / increment_rate_limit over the per-principal
rate-limits table, and the middleware that wires them together. The
outcome of the check's backend read is an explicit parameter so that the
ClientError path (fail open) is part of the model; the live wiring
instantiates it with the actual table read. -/

/-- An item of the rate-limits table. -/
structure RateRow where
  api_key : String
  window_start : Nat
  request_count : Nat
  ttl : Nat
deriving DecidableEq

/-- The rate-limits table in scan order. -/
abbrev RateStore := List RateRow

/-- Result of a DynamoDB get_item call, including the ClientError
possibility that the source catches. -/
inductive ReadResult (α : Type) where
  | ok (item : Option α)
  | clientError
deriving DecidableEq

/-- The get_item read underlying check_rate_limit, keyed by
(api_key, window_start). -/
def rateReadItem (rs : RateStore) (api_key : String) (window_start : Nat) : Option RateRow :=
  rs.find? (fun r => r.api_key == api_key && r.window_start == window_start)

/-- database.check_rate_limit: fixed-window check. The window start is
now truncated to the window size; a missing row counts as zero; the
remaining quota is max(0, limit - request_count) (natural subtraction);
any ClientError on the read is swallowed and the request is allowed with
the configured limit as remaining (fail open). -/
def check_rate_limit (read : ReadResult RateRow) (limit window_seconds current_time : Nat) :
    Bool × Nat × Nat :=
  let window_start := current_time / window_seconds * window_seconds
  let reset_timestamp := window_start + window_seconds
  match read with
  | .clientError => (true, limit, reset_timestamp)
  | .ok none => (true, limit, reset_timestamp)
  | .ok (some item) =>
      (decide (item.request_count < limit), limit - item.request_count, reset_timestamp)

/-- Result of the conditional increment write. -/
inductive IncrementResult where
  | updated (row : RateRow) (rs : RateStore)
  | condFailed
  | validationError
deriving DecidableEq

/-- The DynamoDB reserved words this code base touches as attribute
names (the full reserved list is much longer). An expression may not
name them literally; they must be aliased through
ExpressionAttributeNames, as the source does for #status, #source,
#event_type and #priority in its query expressions. DynamoDB's check is
case-insensitive; the names in this code are lower case. -/
def dynamoReservedWords : List String := ["ttl", "status", "source", "timestamp"]

/-- Whether an attribute name may appear literally in a DynamoDB update
or condition expression: an unaliased reserved word makes the whole
request fail with ValidationException before any item is read. -/
def dynamoAttrNameAllowed (name : String) : Bool :=
  !(dynamoReservedWords.contains name)

/-- database.increment_rate_limit with the rate-limits table present:
UpdateItem with UpdateExpression ADD request_count :inc SET ttl = :ttl
under the condition request_count < limit. DynamoDB validates the
expression before looking at the item, and ttl is a reserved word used
here without an ExpressionAttributeNames alias, so every call is
rejected with ValidationException — which the source re-raises (its
except branches handle only ConditionalCheckFailedException and
ResourceNotFoundException, the latter only for a missing table) — and
nothing is ever written. The item-level branches below are what would
run were the expression valid: a present under-limit row is
incremented, while an at-limit row — or an absent row, since a
condition referencing an attribute of a missing item evaluates false —
raises ConditionalCheckFailedException. -/
def increment_rate_limit (rs : RateStore) (api_key : String) (window_start limit : Nat) :
    IncrementResult :=
  if !(dynamoAttrNameAllowed "ttl") then .validationError
  else
    let ttl := window_start + 3600
    match rateReadItem rs api_key window_start with
    | some row =>
        if row.request_count < limit then
          let row' := { row with request_count := row.request_count + 1, ttl := ttl }
          let rs' := rs.map
            (fun r => if r.api_key == api_key && r.window_start == window_start then row' else r)
          .updated row' rs'
        else .condFailed
    | none => .condFailed

/-- Outcome of the rate-limit middleware for one request. -/
inductive RateLimitOutcome where
  | allowed (remaining reset : Nat)
  | rejected429 (reset : Nat)
deriving DecidableEq

/-- middleware.rate_limit.rate_limit_middleware, with the check's backend
read outcome as an explicit parameter: check first (not-allowed means
RateLimitExceededError, HTTP 429), then the conditional increment, whose
ConditionalCheckFailedException is also mapped to 429; any other
ClientError from the increment — the ValidationException every call in
fact raises — is logged and the request allowed (fail open), without
decrementing the remaining header; only on a successful increment is
the remaining header decremented (max(0, remaining - 1)). -/
def rate_limit_middleware_core (checkRead : ReadResult RateRow) (rs : RateStore)
    (api_key : String) (rate_limit window_seconds current_time : Nat) :
    RateLimitOutcome × RateStore :=
  let window_start := current_time / window_seconds * window_seconds
  let (allowed, remaining, reset) := check_rate_limit checkRead rate_limit window_seconds current_time
  if !allowed then (.rejected429 reset, rs)
  else
    match increment_rate_limit rs api_key window_start rate_limit with
    | .updated _ rs' => (.allowed (remaining - 1) reset, rs')
    | .condFailed => (.rejected429 reset, rs)
    | .validationError => (.allowed remaining reset, rs)

/-- The live middleware wiring: the check reads the actual table row for
the current window. -/
def rate_limit_middleware (rs : RateStore) (api_key : String)
    (rate_limit window_seconds current_time : Nat) : RateLimitOutcome × RateStore :=
  rate_limit_middleware_core
    (.ok (rateReadItem rs api_key (current_time / window_seconds * window_seconds)))
    rs api_key rate_limit window_seconds current_time

/-- Whether a middleware outcome is the 429 rejection. -/
def RateLimitOutcome.isRejected : RateLimitOutcome → Bool
  | .rejected429 _ => true
  | .allowed _ _ => false

/-! ## Webhook delivery

lambda_handlers.webhook_delivery: HMAC signing of the JSON-serialized
event snapshot, the synchronous delivery attempt with its outcome policy,
and the SQS batch handler that decides whether a message is deleted or
returned for redelivery. The HTTP response is an explicit parameter. -/

/-- An item of the webhooks table (the fields delivery reads).
is_active is stored as 1/0. -/
structure WebhookRec where
  webhook_id : String
  url : String
  secret : String
  is_active : Nat
deriving DecidableEq

/-- Outcome of one outbound HTTP POST. -/
inductive HttpResult where
  | status (code : Nat)
  | timeout
  | netError
deriving DecidableEq

/-- webhook_delivery.generate_webhook_signature: hex-encoded HMAC-SHA256
of the UTF-8 payload keyed by the UTF-8 secret. -/
def generate_webhook_signature (payload secret : String) : String :=
  bytesToHex (hmacSha256 (utf8Encode secret) (utf8Encode payload))

/-- The outbound request deliver_webhook_sync constructs. requests.post
with json=event_data serializes the body with json.dumps default
separators — the same string the signature is computed over. -/
structure DeliveryRequest where
  url : String
  body : String
  signatureHeader : String
  webhookIdHeader : String
  timestampHeader : String
  contentType : String
deriving DecidableEq

/-- The request construction inside deliver_webhook_sync. -/
def deliveryRequest (w : WebhookRec) (event_data : Json) (timestamp : String) : DeliveryRequest :=
  let payload_json := jsonDumps event_data
  { url := w.url, body := payload_json,
    signatureHeader := generate_webhook_signature payload_json w.secret,
    webhookIdHeader := w.webhook_id, timestampHeader := timestamp,
    contentType := "application/json" }

/-- The backoff sleep deliver_webhook_sync performs before re-attempting:
2^(retry_count - 1) seconds when retry_count > 0. -/
def backoffDelay (retry_count : Nat) : Nat :=
  if retry_count > 0 then 2 ^ (retry_count - 1) else 0

/-- The outcome classification of deliver_webhook_sync: True only for
2xx. Both the 4xx branch (logged as client error) and the 5xx branch
(logged as server error) return False, as do timeout and any other
request exception — the returned boolean does not distinguish them. -/
def deliverOutcome : HttpResult → Bool
  | .status code => if 200 ≤ code && code < 300 then true else false
  | .timeout => false
  | .netError => false

/-- webhook_delivery.deliver_webhook_sync: the request it sends and the
boolean it returns for the given HTTP outcome. -/
def deliver_webhook_sync (w : WebhookRec) (event_data : Json) (timestamp : String)
    (resp : HttpResult) : DeliveryRequest × Bool :=
  (deliveryRequest w event_data timestamp, deliverOutcome resp)

/-- webhook_delivery.handler for one well-formed SQS record: True means
the message id is appended to batchItemFailures (so SQS redelivers it, or
moves it to the dead-letter queue once the redrive policy's maximum
receive count is reached); False means the message is deleted. A missing
webhook is a failure; an inactive one is skipped (deleted); otherwise the
flag is the negation of deliver_webhook_sync's boolean — for every non-2xx
outcome, 4xx included, the message is returned for redelivery. -/
def handler_record (w : Option WebhookRec) (event_data : Json) (timestamp : String)
    (resp : HttpResult) : Bool :=
  match w with
  | none => true
  | some wh =>
    if wh.is_active == 0 then false
    else !(deliver_webhook_sync wh event_data timestamp resp).2

/-- Number of HTTP POST attempts a queued message generates: SQS
redelivers while the handler keeps flagging the message as failed, up to
maxReceive deliveries in total (the redrive policy's maximum receive
count; the handler's own comment puts it at 3 attempts, retry counts 0,
1, 2). responses gives the HTTP outcome of each attempt, indexed from 0. -/
def deliveryAttemptsFuel (w : WebhookRec) (event_data : Json) (timestamp : String)
    (responses : Nat → HttpResult) : Nat → Nat → Nat
  | 0, _ => 0
  | fuel + 1, i =>
    if handler_record (some w) event_data timestamp (responses i) then
      1 + deliveryAttemptsFuel w event_data timestamp responses fuel (i + 1)
    else 1

/-- Total POST attempts for an active webhook under the redrive policy. -/
def deliveryAttempts (w : WebhookRec) (event_data : Json) (timestamp : String)
    (responses : Nat → HttpResult) (maxReceive : Nat) : Nat :=
  deliveryAttemptsFuel w event_data timestamp responses maxReceive 0

/-- endpoints.webhooks.test_webhook_endpoint's signature computation:
hmac.new(secret.encode(), json.dumps(test_event).encode(),
hashlib.sha256).hexdigest(), the same construction as the queued path. -/
def test_webhook_signature (w : WebhookRec) (test_event : Json) : String :=
  bytesToHex (hmacSha256 (utf8Encode w.secret) (utf8Encode (jsonDumps test_event)))

/-- Modelled from the spec: the repository ships no receiver-side
verification routine (subscribers are external), and the spec's
Signature round-trip property defines verification as recomputing the
HMAC over the received payload with the same secret and comparing it
with the carried signature. -/
def verify_webhook_signature (payload signature secret : String) : Bool :=
  generate_webhook_signature payload secret == signature

/-! ## The pagination codec and the pending-events listing

utils.encode_cursor / decode_cursor wrap the store's continuation key
(serialize as JSON, then base64). database.query_pending_events queries
the status-created_at GSI ascending and consumes a cursor decode failure
by starting from page one. endpoints.inbox.get_inbox validates the query
parameters and wires the listing; it receives the caller's api_key from
authentication but passes no principal to the query. -/

/-- utils.encode_cursor: json.dumps then base64-encode. -/
def encode_cursor (key : Json) : String :=
  b64Encode (utf8Encode (jsonDumps key))

/-- Result of decoding a cursor: the native continuation key, or the
InvalidCursor signal (a ValueError). -/
inductive CursorResult where
  | ok (key : Json)
  | invalidCursor
deriving DecidableEq

/-- utils.decode_cursor: base64-decode, UTF-8 decode, json.loads; every
failure mode is a ValueError to the caller (binascii.Error,
JSONDecodeError and UnicodeDecodeError are re-raised as ValueError;
the UnicodeEncodeError that b64decode raises on a non-ASCII cursor is
itself a ValueError subclass and reaches the caller's except ValueError
the same way). -/
def decode_cursor (cursor : String) : CursorResult :=
  match b64Decode cursor with
  | none => .invalidCursor
  | some bytes =>
    match utf8Decode bytes with
    | none => .invalidCursor
    | some s =>
      match jsonLoads s with
      | none => .invalidCursor
      | some j => .ok j

/-- The continuation key of a decode, none on the InvalidCursor signal. -/
def CursorResult.toKey : CursorResult → Option Json
  | .ok k => some k
  | .invalidCursor => none

/-- Insert an event into a list sorted by created_at (ties keep insertion
order, matching a stable index order). -/
def insertByCreatedAt (e : EventRec) : List EventRec → List EventRec
  | [] => [e]
  | x :: xs =>
      if decide (x.created_at ≤ e.created_at) then x :: insertByCreatedAt e xs
      else e :: x :: xs

/-- The status-created_at-index restricted to partition key status =
pending, in ascending created_at order (ScanIndexForward true). -/
def pendingIndex (s : Store) : List EventRec :=
  (s.events.filter (fun e => e.status == "pending")).foldl
    (fun acc e => insertByCreatedAt e acc) []

/-- The continuation key a GSI query reports for an event: the index keys
together with the table keys. -/
def eventGsiKey (e : EventRec) : Json :=
  .obj (.cons "event_id" (.str e.event_id)
       (.cons "created_at" (.str e.created_at)
       (.cons "status" (.str e.status) .nil)))

/-- The optional filters of the pending-events query. -/
structure InboxFilters where
  source : Option String
  event_type : Option String
  created_after : Option String
  created_before : Option String
  priority : Option String
  metadata_filter : Option (String × String)
deriving DecidableEq

/-- The query with no filters. -/
def InboxFilters.noFilters : InboxFilters :=
  ⟨Option.none, Option.none, Option.none, Option.none, Option.none, Option.none⟩

/-- The FilterExpression of query_pending_events, applied to the examined
items after the key condition: equality on source and event_type, range
conditions on created_at (DynamoDB string comparison, which on these
ISO-8601 Z timestamps is chronological), and equality on
metadata.priority and the requested metadata field (a document path into
a missing attribute makes the condition false). -/
def matchesFilters (f : InboxFilters) (e : EventRec) : Bool :=
  (match f.source with | some src => e.source == src | none => true) &&
  (match f.event_type with | some et => e.event_type == et | none => true) &&
  (match f.created_after with | some ca => decide (ca ≤ e.created_at) | none => true) &&
  (match f.created_before with | some cb => decide (e.created_at ≤ cb) | none => true) &&
  (match f.priority with
   | some p => (match e.metadata with
                | some m => m.find "priority" == some (.str p)
                | none => false)
   | none => true) &&
  (match f.metadata_filter with
   | some (k, v) => (match e.metadata with
                     | some m => m.find k == some (.str v)
                     | none => false)
   | none => true)

/-- Number of members of a JSON object. -/
def JsonObj.length : JsonObj → Nat
  | .nil => 0
  | .cons _ _ tl => tl.length + 1

/-- Whether a decoded continuation token is a well-formed
ExclusiveStartKey for the status-created_at index: an object holding
exactly the table and index key attributes — event_id, created_at and
status — each a string. boto3 rejects a non-mapping token with
ParamValidationError and DynamoDB rejects a mapping that does not match
the key schema with ValidationException; query_pending_events catches
neither (its try covers only decode_cursor's ValueError). -/
def validStartKey : Json → Bool
  | .obj kvs =>
      kvs.length == 3
      && (match kvs.find "event_id" with | some (.str _) => true | _ => false)
      && (match kvs.find "created_at" with | some (.str _) => true | _ => false)
      && (match kvs.find "status" with | some (.str _) => true | _ => false)
  | _ => false

/-- Result of the pending-events query: a page with its continuation
key, or the store's uncaught rejection of a malformed start key
(ParamValidationError/ValidationException), which propagates out of
query_pending_events. -/
inductive QueryResult where
  | ok (events : List EventRec) (lastKey : Option Json)
  | paramError
deriving DecidableEq

/-- One page of the index query: examine at most min(limit, 100)
entries of the positioned index, apply the filters to the examined
entries, and report a continuation key exactly when entries remain
beyond those examined. -/
def queryPage (positioned : List EventRec) (limit : Nat) (f : InboxFilters) : QueryResult :=
  let scanCount := min limit 100
  let page := positioned.take scanCount
  let lastKey :=
    if decide (scanCount < positioned.length) then page.getLast?.map eventGsiKey else none
  .ok (page.filter (matchesFilters f)) lastKey

/-- The GSI query of query_pending_events from an explicit start
position. A well-formed continuation key resumes strictly after the
index entry carrying it (a key matching no entry resumes past the end);
a token that is not a well-formed key is rejected by the store and the
error is not caught. -/
def queryPendingFrom (s : Store) (startKey : Option Json) (limit : Nat) (f : InboxFilters) :
    QueryResult :=
  match startKey with
  | some k =>
    if validStartKey k then
      let idx := pendingIndex s
      queryPage ((idx.dropWhile (fun e => !(eventGsiKey e == k))).drop 1) limit f
    else .paramError
  | none => queryPage (pendingIndex s) limit f

/-- database.query_pending_events: a cursor whose decode raises is
caught (except ValueError), logged and ignored — the query then starts
from page one. A cursor that decodes is used as the start key, whatever
it decoded to. -/
def query_pending_events (s : Store) (limit : Nat) (cursor : Option String) (f : InboxFilters) :
    QueryResult :=
  let startKey :=
    match cursor with
    | some c => (match decode_cursor c with | .ok k => some k | .invalidCursor => Option.none)
    | none => Option.none
  queryPendingFrom s startKey limit f

/-- Digit test. -/
def isDigit (c : Char) : Bool := 48 ≤ c.toNat && c.toNat ≤ 57

/-- Consume exactly n digits. -/
def takeNDigits : Nat → List Char → Option (List Char)
  | 0, cs => some cs
  | n + 1, c :: cs => if isDigit c then takeNDigits n cs else none
  | _ + 1, [] => none

/-- Recognizer for the ISO-8601 timestamps get_inbox accepts for its date
filters, modelling datetime.fromisoformat on the canonical form this API
emits and documents: YYYY-MM-DDTHH:MM:SS with optional fractional
seconds and an optional Z or +00:00 suffix. The endpoint re-serializes
the parsed value, which on this canonical form reproduces the input, so
the model validates and passes the string through. -/
def isIsoDateTime (s : String) : Bool :=
  let afterDate : Option (List Char) := do
    let r1 ← takeNDigits 4 s.data
    let r2 ← match r1 with | '-' :: t => takeNDigits 2 t | _ => none
    let r3 ← match r2 with | '-' :: t => takeNDigits 2 t | _ => none
    let r4 ← match r3 with | 'T' :: t => takeNDigits 2 t | _ => none
    let r5 ← match r4 with | ':' :: t => takeNDigits 2 t | _ => none
    match r5 with | ':' :: t => takeNDigits 2 t | _ => none
  match afterDate with
  | none => false
  | some rest =>
    let afterFrac :=
      match rest with
      | '.' :: t =>
        let ds := t.takeWhile isDigit
        if 1 ≤ ds.length && ds.length ≤ 6 then some (t.dropWhile isDigit) else none
      | _ => some rest
    match afterFrac with
    | none => false
    | some [] => true
    | some ['Z'] => true
    | some ['+', '0', '0', ':', '0', '0'] => true
    | some _ => false

/-- The query parameters of GET /inbox. -/
structure InboxQuery where
  limit : Nat
  cursor : Option String
  source : Option String
  event_type : Option String
  created_after : Option String
  created_before : Option String
  priority : Option String
  metadata_key : Option String
  metadata_value : Option String
deriving DecidableEq

/-- The response body of GET /inbox. -/
structure InboxResponse where
  events : List EventRec
  limit : Nat
  next_cursor : Option String
deriving DecidableEq

/-- Outcome of GET /inbox: the response body, a ValidationError
(HTTP 400), or the generic internal error (HTTP 500) that an exception
propagating out of the handler produces. -/
inductive InboxResult where
  | ok (resp : InboxResponse)
  | validationError
  | internalError
deriving DecidableEq

/-- endpoints.inbox.get_inbox: validate the date filters (format and
order), the priority value and the metadata filter pairing (each failure
a ValidationError), query the pending events, and encode the
continuation key of a further page as the next_cursor. A store error the
query does not catch propagates to the app's generic handler as an
internal error. The caller's api_key comes from authentication as a
dependency; the handler body passes no principal to the query. -/
def get_inbox (api_key : String) (q : InboxQuery) (s : Store) : InboxResult :=
  let _ := api_key
  let dateOk :=
    (match q.created_after with | some ca => isIsoDateTime ca | none => true) &&
    (match q.created_before with | some cb => isIsoDateTime cb | none => true)
  if !dateOk then .validationError
  else if (match q.created_after, q.created_before with
           | some ca, some cb => decide (cb < ca)
           | _, _ => false) then .validationError
  else if (match q.priority with
           | some p => !(p == "low" || p == "normal" || p == "high")
           | none => false) then .validationError
  else if (match q.metadata_key, q.metadata_value with
           | some _, none => true
           | none, some _ => true
           | _, _ => false) then .validationError
  else
    let mdf :=
      match q.metadata_key, q.metadata_value with
      | some k, some v => some (k, v)
      | _, _ => Option.none
    let f : InboxFilters :=
      ⟨q.source, q.event_type, q.created_after, q.created_before, q.priority, mdf⟩
    match query_pending_events s q.limit q.cursor f with
    | .ok events lastKey =>
        .ok { events := events, limit := q.limit, next_cursor := lastKey.map encode_cursor }
    | .paramError => .internalError

/-! ## Shared lemmas about the store operations -/

/-- Taking the head of a filtered list is exactly find?. DynamoDB hands
back the matches of a page and the source takes Items[0]; this identifies
that with the first match. -/
theorem filter_head?_eq_find? {α : Type} (p : α → Bool) (l : List α) :
    (l.filter p).head? = l.find? p := by
  induction l with
  | nil => rfl
  | cons x xs ih =>
    by_cases h : p x
    · simp [List.filter_cons, h, List.find?_cons, ih]
    · simp [List.filter_cons, h, List.find?_cons, ih]

/-- With enough fuel for the whole table, the paged scan loop of
get_event computes the first match of the table — it pages through every
item rather than stopping after one page. -/
theorem scanPagesFuel_eq_find? (eid : String) :
    ∀ (fuel : Nat) (evs : List EventRec), evs.length ≤ fuel * 100 →
      scanPagesFuel fuel evs eid = evs.find? (fun r => r.event_id == eid) := by
  intro fuel
  induction fuel with
  | zero =>
    intro evs h
    have : evs = [] := List.length_eq_zero.mp (Nat.le_zero.mp h)
    subst this
    rfl
  | succ n ih =>
    intro evs h
    have hdecomp : evs.find? (fun r => r.event_id == eid)
        = ((evs.take 100).find? (fun r => r.event_id == eid)).or
          ((evs.drop 100).find? (fun r => r.event_id == eid)) := by
      conv_lhs => rw [← List.take_append_drop 100 evs]
      exact List.find?_append
    show (match (evs.take 100).filter (fun r => r.event_id == eid) with
      | r :: _ => some r
      | [] => if evs.length ≤ 100 then none
              else scanPagesFuel n (evs.drop 100) eid) = _
    rcases hfil : (evs.take 100).filter (fun r => r.event_id == eid) with _ | ⟨r, tail⟩
    · rw [hfil]
      show (if evs.length ≤ 100 then none else scanPagesFuel n (evs.drop 100) eid) = _
      have hnone : (evs.take 100).find? (fun r => r.event_id == eid) = none := by
        rw [← filter_head?_eq_find?, hfil]; rfl
      by_cases hle : evs.length ≤ 100
      · have htk : evs.take 100 = evs := List.take_of_length_le hle
        rw [if_pos hle, ← htk, hnone]
      · have hlen : (evs.drop 100).length ≤ n * 100 := by
          rw [List.length_drop]; omega
        rw [if_neg hle, ih (evs.drop 100) hlen, hdecomp, hnone, Option.none_or]
    · rw [hfil]
      show some r = _
      have hsome : (evs.take 100).find? (fun r => r.event_id == eid) = some r := by
        rw [← filter_head?_eq_find?, hfil]; rfl
      rw [hdecomp, hsome]
      rfl

/-- get_event without created_at is the first table entry with the given
event_id, on both the GSI path and the paged-scan fallback path. -/
theorem get_event_none_eq_find? (s : Store) (eid : String) :
    get_event s eid Option.none = s.events.find? (fun r => r.event_id == eid) := by
  show (if s.gsiAvailable then (gsiQueryEventId s.events eid).head? else scanForEvent s.events eid)
      = _
  by_cases h : s.gsiAvailable
  · simp only [h, if_true, gsiQueryEventId, List.head?_take]
    rw [if_neg (by omega), filter_head?_eq_find?]
  · simp only [h, if_false, scanForEvent]
    exact scanPagesFuel_eq_find? eid _ s.events (by omega)

/-- With an event present and its event_id unique in the table, get_event
returns exactly that event. -/
theorem get_event_unique (s : Store) (e : EventRec)
    (hmem : e ∈ s.events)
    (huniq : ∀ r ∈ s.events, r.event_id = e.event_id → r = e) :
    get_event s e.event_id Option.none = some e := by
  rw [get_event_none_eq_find?]
  have hsome : (s.events.find? (fun r => r.event_id == e.event_id)).isSome := by
    rw [List.find?_isSome]
    exact ⟨e, hmem, by simp⟩
  rcases hr : s.events.find? (fun r => r.event_id == e.event_id) with _ | r
  · rw [hr] at hsome; simp at hsome
  · have hp := List.find?_some hr
    have hm := List.mem_of_find?_eq_some hr
    have : r = e := huniq r hm (by simpa using hp)
    rw [hr, this]

/-- C6. For every stored event, Get(event_id) without created_at finds
it: the GSI query is attempted first, and the fallback pages a consistent
scan through the whole table via the continuation key, never assuming
single-page completeness. In both modes the result is the first stored
entry with that event_id, and a stored event whose id is unique is
returned itself. -/
theorem c6_get_event_finds_stored_events :
    (∀ (s : Store) (eid : String),
       get_event s eid Option.none = s.events.find? (fun r => r.event_id == eid))
    ∧ (∀ (s : Store) (e : EventRec), e ∈ s.events →
         (∀ r ∈ s.events, r.event_id = e.event_id → r = e) →
         get_event s e.event_id Option.none = some e) :=
  ⟨get_event_none_eq_find?, fun s e hmem huniq => get_event_unique s e hmem huniq⟩

/-- A 150-row table exercising the scan fallback across two pages. -/
def bigTable : List EventRec :=
  (List.range 150).map (fun i =>
    { event_id := "id" ++ toString i, created_at := "2024-01-01T00:00:00Z",
      source := "s", event_type := "t", payload := .nil, status := "pending",
      acknowledged_at := Option.none, metadata := Option.none, ttl := 0 })

/-- The witness store for the get_event theorem: no GSI, so only the
paged scan can find row 137 on the second page. -/
def bigStore : Store := { events := bigTable, idem := [], gsiAvailable := false }

/-- The row the witness looks up. -/
def row137 : EventRec :=
  { event_id := "id137", created_at := "2024-01-01T00:00:00Z",
    source := "s", event_type := "t", payload := .nil, status := "pending",
    acknowledged_at := Option.none, metadata := Option.none, ttl := 0 }

set_option maxRecDepth 40000 in
/-- Witness for C6: in a 150-row GSI-less store, the scan fallback pages
past the first 100 rows and finds row 137. -/
theorem c6_witness :
    row137 ∈ bigStore.events
    ∧ get_event bigStore row137.event_id Option.none = some row137 :=
  ⟨by decide,
   c6_get_event_finds_stored_events.2 bigStore row137 (by decide)
     (by decide)⟩

/-! ## C1: idempotent creation -/

/-- A ledger lookup that misses means no ledger row carries the key. -/
theorem check_idem_none_iff (s : Store) (k : String) :
    check_idempotency_key s k = Option.none ↔
      s.idem.find? (fun r => r.idempotency_key == k) = Option.none := by
  unfold check_idempotency_key
  rcases s.idem.find? (fun r => r.idempotency_key == k) with _ | r <;> simp

/-- C1. A Create whose idempotency key resolves through the ledger to an
existing event returns that event verbatim and writes nothing; and two
consecutive Creates bearing the same (fresh) key — with the same or
different payloads — return the same event record, leave the store of
the second call untouched, and add exactly one event row overall. -/
theorem c1_create_idempotency :
    (∀ (s : Store) (k eid : String) (e : EventRec) (source event_type : String)
       (payload : JsonObj) (metadata : Option JsonObj) (newId nowIso : String) (nowEpoch : Nat),
       k ≠ "" →
       check_idempotency_key s k = some eid →
       get_event s eid Option.none = some e →
       create_event s source event_type payload metadata (some k) newId nowIso nowEpoch = (e, s))
    ∧
    (∀ (s : Store) (k : String)
       (source1 event_type1 : String) (payload1 : JsonObj) (metadata1 : Option JsonObj)
       (newId1 nowIso1 : String) (nowEpoch1 : Nat)
       (source2 event_type2 : String) (payload2 : JsonObj) (metadata2 : Option JsonObj)
       (newId2 nowIso2 : String) (nowEpoch2 : Nat) (e1 : EventRec) (s1 : Store),
       k ≠ "" →
       check_idempotency_key s k = Option.none →
       (∀ r ∈ s.events, r.event_id ≠ newId1) →
       create_event s source1 event_type1 payload1 metadata1 (some k) newId1 nowIso1 nowEpoch1
         = (e1, s1) →
       create_event s1 source2 event_type2 payload2 metadata2 (some k) newId2 nowIso2 nowEpoch2
         = (e1, s1)
       ∧ s1.events = s.events ++ [e1] ∧ e1.event_id = newId1) := by
  constructor
  · intro s k eid e source event_type payload metadata newId nowIso nowEpoch hk hchk hget
    simp only [create_event, truthyStr, if_neg hk, hchk, hget]
  · intro s k source1 event_type1 payload1 metadata1 newId1 nowIso1 nowEpoch1
      source2 event_type2 payload2 metadata2 newId2 nowIso2 nowEpoch2 e1 s1
      hk hchk hfresh hcreate1
    have hfind : s.idem.find? (fun r => r.idempotency_key == k) = Option.none :=
      (check_idem_none_iff s k).mp hchk
    -- the first call appends the new event and the ledger row
    set e1d := mkEventRec source1 event_type1 payload1 metadata1 newId1 nowIso1 nowEpoch1 with he1d
    have heid : e1d.event_id = newId1 := rfl
    have hany0 : (s.events.any
        fun r => r.event_id == e1d.event_id && r.created_at == e1d.created_at) = false := by
      rw [List.any_eq_false]
      intro r hr
      simp only [Bool.and_eq_true, beq_iff_eq, not_and]
      intro hre
      exact absurd (heid ▸ hre) (hfresh r hr)
    have hput : putEventItem s.events e1d = s.events ++ [e1d] := by
      unfold putEventItem
      rw [hany0]
      simp
    have hany : s.idem.any (fun r => r.idempotency_key == k) = false := by
      rw [List.any_eq_false]
      intro r hr
      have := List.find?_eq_none.mp hfind r hr
      simpa using this
    have hc1 : create_event s source1 event_type1 payload1 metadata1 (some k)
        newId1 nowIso1 nowEpoch1
        = (e1d, { s with events := s.events ++ [e1d],
                         idem := s.idem ++ [⟨k, newId1, nowIso1, nowEpoch1 + 24 * 60 * 60⟩] }) := by
      simp only [create_event, truthyStr, if_neg hk, hchk, store_idempotency_key, hany, hput]
      simp
    rw [hcreate1] at hc1
    have he1 : e1 = e1d := congrArg Prod.fst hc1
    have hs1 : s1 = { s with events := s.events ++ [e1d],
                             idem := s.idem ++ [⟨k, newId1, nowIso1, nowEpoch1 + 24 * 60 * 60⟩] } :=
      congrArg Prod.snd hc1
    refine ⟨?_, by rw [hs1, he1], by rw [he1]; exact heid⟩
    -- the second call: the ledger now resolves k to the new event
    have hchk2 : check_idempotency_key s1 k = some newId1 := by
      unfold check_idempotency_key
      rw [hs1]
      simp only [List.find?_append, hfind]
      simp
    have hget2 : get_event s1 newId1 Option.none = some e1d := by
      rw [get_event_none_eq_find?, hs1]
      simp only [List.find?_append]
      have : s.events.find? (fun r => r.event_id == newId1) = Option.none := by
        rw [List.find?_eq_none]
        intro r hr
        simpa using hfresh r hr
      rw [this]
      simp
      exact heid
    simp only [create_event, truthyStr, if_neg hk, hchk2, hget2, he1]

/-- The witness store for the first part of C1: the ledger maps key K to
a stored event. -/
def c1HitStore : Store :=
  { events := [{ event_id := "e0", created_at := "2024-01-01T00:00:00Z", source := "s0",
                 event_type := "t0", payload := .nil, status := "pending",
                 acknowledged_at := Option.none, metadata := Option.none, ttl := 7 }],
    idem := [⟨"K", "e0", "2024-01-01T00:00:00Z", 9⟩], gsiAvailable := true }

/-- The stored event c1HitStore's ledger entry references. -/
def c1HitEvent : EventRec :=
  { event_id := "e0", created_at := "2024-01-01T00:00:00Z", source := "s0",
    event_type := "t0", payload := .nil, status := "pending",
    acknowledged_at := Option.none, metadata := Option.none, ttl := 7 }

/-- The event the first Create of the C1 witness produces. -/
def c1FirstEvent : EventRec :=
  mkEventRec "src" "tp" (.cons "a" (.num 1) .nil) Option.none "u1" "T1" 100

/-- The store after the first Create of the C1 witness. -/
def c1AfterFirst : Store :=
  { events := [c1FirstEvent], idem := [⟨"K", "u1", "T1", 100 + 24 * 60 * 60⟩],
    gsiAvailable := true }

/-- Witness for C1: a ledger hit returns the referenced event with no
write even for a different payload, and from an empty store two Creates
with key K (different payloads) return one identical event and leave
exactly one row. -/
theorem c1_witness :
    (create_event c1HitStore "src" "tp" (.cons "x" (.num 2) .nil) Option.none (some "K")
        "u9" "T9" 50 = (c1HitEvent, c1HitStore))
    ∧ (create_event c1AfterFirst "src" "tp" (.cons "b" (.num 2) .nil) Option.none (some "K")
          "u2" "T2" 200
        = (c1FirstEvent, c1AfterFirst)
      ∧ c1AfterFirst.events = [] ++ [c1FirstEvent] ∧ c1FirstEvent.event_id = "u1") :=
  ⟨c1_create_idempotency.1 c1HitStore "K" "e0" c1HitEvent "src" "tp"
      (.cons "x" (.num 2) .nil) Option.none "u9" "T9" 50
      (by decide) (by decide) (by decide),
   c1_create_idempotency.2 { events := [], idem := [], gsiAvailable := true } "K"
      "src" "tp" (.cons "a" (.num 1) .nil) Option.none "u1" "T1" 100
      "src" "tp" (.cons "b" (.num 2) .nil) Option.none "u2" "T2" 200
      c1FirstEvent c1AfterFirst
      (by decide) (by decide) (by intro r hr; simp at hr) (by decide)⟩

/-! ## C2: single-winner acknowledge -/

/-- The updated event the winning conditional update produces. -/
def ackedEvent (e : EventRec) (ackTime : String) : EventRec :=
  { e with status := "acknowledged", acknowledged_at := some ackTime }

/-- The store after the winning acknowledge replaced the event row. -/
def ackedStore (s : Store) (e : EventRec) (ackTime : String) : Store :=
  let evs' := s.events.map
    (fun r => if r.event_id == e.event_id && r.created_at == e.created_at
              then ackedEvent e ackTime else r)
  { s with events := evs' }

/-- The composite-key lookup inside the conditional update resolves to
the unique event itself. -/
theorem find_by_key_unique (s : Store) (e : EventRec)
    (hmem : e ∈ s.events)
    (huniq : ∀ r ∈ s.events, r.event_id = e.event_id → r = e) :
    s.events.find? (fun r => r.event_id == e.event_id && r.created_at == e.created_at)
      = some e := by
  have hsome : (s.events.find?
      (fun r => r.event_id == e.event_id && r.created_at == e.created_at)).isSome := by
    rw [List.find?_isSome]
    exact ⟨e, hmem, by simp⟩
  rcases hr : s.events.find?
      (fun r => r.event_id == e.event_id && r.created_at == e.created_at) with _ | r
  · rw [hr] at hsome; simp at hsome
  · have hp := List.find?_some hr
    have hm := List.mem_of_find?_eq_some hr
    simp only [Bool.and_eq_true, beq_iff_eq] at hp
    rw [hr, huniq r hm hp.1]

/-- A pending event with a unique id wins the conditional update: the
acknowledge returns the updated record and replaces the row. -/
theorem acknowledge_pending (s : Store) (e : EventRec) (ackTime : String)
    (hmem : e ∈ s.events) (hpend : e.status = "pending")
    (huniq : ∀ r ∈ s.events, r.event_id = e.event_id → r = e) :
    acknowledge_event s e.event_id ackTime
      = (some (ackedEvent e ackTime), ackedStore s e ackTime) := by
  unfold acknowledge_event
  rw [get_event_unique s e hmem huniq]
  simp only [find_by_key_unique s e hmem huniq, hpend, beq_self_eq_true, if_true]
  rfl

/-- An event that is no longer pending makes the conditional update fail:
acknowledge returns None and the store is unchanged. -/
theorem acknowledge_not_pending (s : Store) (e : EventRec) (ackTime : String)
    (hmem : e ∈ s.events) (hst : e.status ≠ "pending")
    (huniq : ∀ r ∈ s.events, r.event_id = e.event_id → r = e) :
    acknowledge_event s e.event_id ackTime = (none, s) := by
  unfold acknowledge_event
  rw [get_event_unique s e hmem huniq]
  have hfalse : (e.status == "pending") = false := by simpa using hst
  simp only [find_by_key_unique s e hmem huniq, hfalse]
  rfl

/-- The endpoint maps a failed conditional update on a still-present
event to the Conflict (HTTP 409) outcome. -/
theorem ack_endpoint_conflict (s : Store) (e : EventRec) (ackTime : String)
    (hmem : e ∈ s.events) (hst : e.status ≠ "pending")
    (huniq : ∀ r ∈ s.events, r.event_id = e.event_id → r = e) :
    acknowledge_event_endpoint s e.event_id ackTime = (.conflict, s) := by
  unfold acknowledge_event_endpoint
  rw [acknowledge_not_pending s e ackTime hmem hst huniq]
  show (match get_event s e.event_id Option.none with
        | Option.none => (AckOutcome.notFound, s)
        | some _ => (AckOutcome.conflict, s)) = _
  rw [get_event_unique s e hmem huniq]

/-- The acknowledged event is a member of the updated store. -/
theorem ackedEvent_mem (s : Store) (e : EventRec) (ackTime : String) (hmem : e ∈ s.events) :
    ackedEvent e ackTime ∈ (ackedStore s e ackTime).events := by
  simp only [ackedStore, List.mem_map]
  refine ⟨e, hmem, ?_⟩
  simp

/-- Uniqueness of the event id survives the acknowledging update. -/
theorem ackedStore_unique (s : Store) (e : EventRec) (ackTime : String)
    (huniq : ∀ r ∈ s.events, r.event_id = e.event_id → r = e) :
    ∀ r ∈ (ackedStore s e ackTime).events,
      r.event_id = (ackedEvent e ackTime).event_id → r = ackedEvent e ackTime := by
  intro r hr hid
  simp only [ackedStore, List.mem_map] at hr
  obtain ⟨r0, hr0, hrdef⟩ := hr
  by_cases hc : (r0.event_id == e.event_id && r0.created_at == e.created_at) = true
  · rw [← hrdef, if_pos hc]
  · rw [← hrdef, if_neg hc] at hid ⊢
    have : r0 = e := huniq r0 hr0 hid
    subst this
    simp at hc

/-- Every further acknowledge call on the already-acknowledged event
returns Conflict and leaves the store unchanged. -/
theorem ackCalls_conflict_steady (eid ackTime : String) :
    ∀ (m : Nat) (s : Store) (e : EventRec), e ∈ s.events → e.status = "acknowledged" →
      e.event_id = eid →
      (∀ r ∈ s.events, r.event_id = e.event_id → r = e) →
      ackCalls m s eid ackTime = (List.replicate m .conflict, s) := by
  intro m
  induction m with
  | zero => intro s e _ _ _ _; rfl
  | succ m ih =>
    intro s e hmem hst heid huniq
    have hconf : acknowledge_event_endpoint s eid ackTime = (.conflict, s) := by
      rw [← heid]
      exact ack_endpoint_conflict s e ackTime hmem (by rw [hst]; decide) huniq
    show (let (r, s') := acknowledge_event_endpoint s eid ackTime
          let (rs, s'') := ackCalls m s' eid ackTime
          (r :: rs, s'')) = _
    rw [hconf]
    show (match ackCalls m s eid ackTime with
          | (rs, s'') => (AckOutcome.conflict :: rs, s'')) = _
    rw [ih s e hmem hst heid huniq]
    rfl

/-- C2. A pending event with a unique id: of n + 1 acknowledge calls
serialized through the store's conditional update, the first wins,
returning the event updated pending → acknowledged, and every other
call receives Conflict (HTTP 409) with the store unchanged — at most one
winner, and a second acknowledgment is never silently accepted. -/
theorem c2_single_winner_acknowledge (s : Store) (e : EventRec) (ackTime : String) (n : Nat)
    (hmem : e ∈ s.events) (hpend : e.status = "pending")
    (huniq : ∀ r ∈ s.events, r.event_id = e.event_id → r = e) :
    ackCalls (n + 1) s e.event_id ackTime
      = (AckOutcome.ok (ackedEvent e ackTime) :: List.replicate n AckOutcome.conflict,
         ackedStore s e ackTime) := by
  have hfirst : acknowledge_event_endpoint s e.event_id ackTime
      = (.ok (ackedEvent e ackTime), ackedStore s e ackTime) := by
    unfold acknowledge_event_endpoint
    rw [acknowledge_pending s e ackTime hmem hpend huniq]
  show (let (r, s') := acknowledge_event_endpoint s e.event_id ackTime
        let (rs, s'') := ackCalls n s' e.event_id ackTime
        (r :: rs, s'')) = _
  rw [hfirst]
  show (match ackCalls n (ackedStore s e ackTime) e.event_id ackTime with
        | (rs, s'') => (AckOutcome.ok (ackedEvent e ackTime) :: rs, s'')) = _
  rw [ackCalls_conflict_steady e.event_id ackTime n (ackedStore s e ackTime)
      (ackedEvent e ackTime) (ackedEvent_mem s e ackTime hmem) rfl rfl
      (ackedStore_unique s e ackTime huniq)]

/-- The witness store for C2: a single pending event. -/
def c2Store : Store :=
  { events := [{ event_id := "ev-1", created_at := "2024-01-01T00:00:00Z", source := "s",
                 event_type := "t", payload := .nil, status := "pending",
                 acknowledged_at := Option.none, metadata := Option.none, ttl := 0 }],
    idem := [], gsiAvailable := true }

/-- The pending event of the C2 witness store. -/
def c2Event : EventRec :=
  { event_id := "ev-1", created_at := "2024-01-01T00:00:00Z", source := "s",
    event_type := "t", payload := .nil, status := "pending",
    acknowledged_at := Option.none, metadata := Option.none, ttl := 0 }

/-- Witness for C2: three serialized acknowledge calls — the first wins,
the next two receive Conflict. -/
theorem c2_witness :
    ackCalls 3 c2Store "ev-1" "2024-01-01T01:00:00Z"
      = (AckOutcome.ok (ackedEvent c2Event "2024-01-01T01:00:00Z")
          :: List.replicate 2 AckOutcome.conflict,
         ackedStore c2Store c2Event "2024-01-01T01:00:00Z") :=
  c2_single_winner_acknowledge c2Store c2Event "2024-01-01T01:00:00Z" 2
    (by decide) (by decide) (by decide)

/-! ## C8: delete idempotence -/

/-- The store after delete_event removed the addressed row. -/
def deletedStore (s : Store) (e : EventRec) : Store :=
  let evs' := s.events.filter
    (fun r => !(r.event_id == e.event_id && r.created_at == e.created_at))
  { s with events := evs' }

/-- C8. Delete is total and idempotent: a missing event returns success
with no write, every delete call (first or repeated) returns success,
and after deleting a stored event with a unique id the event is absent
from the store. -/
theorem c8_delete_idempotent :
    (∀ (s : Store) (eid : String),
       get_event s eid Option.none = Option.none → delete_event s eid = (true, s))
    ∧ (∀ (s : Store) (eid : String), (delete_event s eid).1 = true)
    ∧ (∀ (s : Store) (eid : String), (delete_event (delete_event s eid).2 eid).1 = true)
    ∧ (∀ (s : Store) (e : EventRec),
         e ∈ s.events →
         (∀ r ∈ s.events, r.event_id = e.event_id → r = e) →
         get_event (delete_event s e.event_id).2 e.event_id Option.none = Option.none) := by
  have htotal : ∀ (s : Store) (eid : String), (delete_event s eid).1 = true := by
    intro s eid
    rcases h : get_event s eid Option.none with _ | e <;> simp [delete_event, h]
  refine ⟨?_, htotal, fun s eid => htotal _ _, ?_⟩
  · intro s eid h
    simp [delete_event, h]
  · intro s e hmem huniq
    have hget : get_event s e.event_id Option.none = some e := get_event_unique s e hmem huniq
    have hdel : (delete_event s e.event_id).2 = deletedStore s e := by
      simp [delete_event, hget, deletedStore]
    rw [hdel, get_event_none_eq_find?]
    show (deletedStore s e).events.find? (fun r => r.event_id == e.event_id) = Option.none
    simp only [deletedStore]
    rw [List.find?_eq_none]
    intro x hx
    simp only [List.mem_filter] at hx
    obtain ⟨hxs, hxp⟩ := hx
    simp only [beq_iff_eq]
    intro hxe
    have : x = e := huniq x hxs hxe
    subst this
    simp at hxp

/-- The witness store for C8: one stored event. -/
def c8Store : Store :=
  { events := [{ event_id := "del-1", created_at := "2024-01-02T00:00:00Z", source := "s",
                 event_type := "t", payload := .nil, status := "pending",
                 acknowledged_at := Option.none, metadata := Option.none, ttl := 0 }],
    idem := [], gsiAvailable := false }

/-- The stored event of the C8 witness. -/
def c8Event : EventRec :=
  { event_id := "del-1", created_at := "2024-01-02T00:00:00Z", source := "s",
    event_type := "t", payload := .nil, status := "pending",
    acknowledged_at := Option.none, metadata := Option.none, ttl := 0 }

/-- Witness for C8: deleting a missing id from an empty store succeeds
unchanged, and after deleting the stored event it is gone. -/
theorem c8_witness :
    delete_event { events := [], idem := [], gsiAvailable := false } "nope"
      = (true, { events := [], idem := [], gsiAvailable := false })
    ∧ get_event (delete_event c8Store "del-1").2 "del-1" Option.none = Option.none :=
  ⟨c8_delete_idempotent.1 { events := [], idem := [], gsiAvailable := false } "nope" (by decide),
   c8_delete_idempotent.2.2.2 c8Store c8Event (by decide) (by decide)⟩

/-! ## C3: the 4xx delivery outcome -/

/-- The webhook of the C3 failing input. -/
def c3Webhook : WebhookRec :=
  { webhook_id := "wh-1", url := "https://example.com/hook", secret := "whsec", is_active := 1 }

/-- C3 (divergence evidence). For a webhook endpoint answering 404 the
handler flags the message as failed on the very first receive
(retry_count 0), so SQS redelivers it: under the 3-receive policy the
404 endpoint is POSTed three times, not once — deliver_webhook_sync
returns the same False for 4xx as for 5xx, and the handler returns every
False for redelivery. A 2xx outcome, by contrast, ends after one
attempt. -/
theorem c3_four_oh_four_is_retried :
    deliverOutcome (.status 404) = false
    ∧ handler_record (some c3Webhook) (.obj .nil) "2024-01-01T00:00:00Z" (.status 404) = true
    ∧ deliveryAttempts c3Webhook (.obj .nil) "2024-01-01T00:00:00Z"
        (fun _ => .status 404) 3 = 3
    ∧ deliveryAttempts c3Webhook (.obj .nil) "2024-01-01T00:00:00Z"
        (fun _ => .status 200) 3 = 1 := by
  refine ⟨rfl, by decide, by decide, by decide⟩

/-! ## C4: the fixed-window counter -/

/-- A sequence of requests by one principal within one window, applied
through the middleware one after another. -/
def rateLimitCalls : Nat → RateStore → String → Nat → Nat → Nat →
    List RateLimitOutcome × RateStore
  | 0, rs, _, _, _, _ => ([], rs)
  | n + 1, rs, api_key, rate_limit, window_seconds, current_time =>
    let (r, rs') := rate_limit_middleware rs api_key rate_limit window_seconds current_time
    let (results, rs'') := rateLimitCalls n rs' api_key rate_limit window_seconds current_time
    (r :: results, rs'')

/-- C4 (divergence evidence). Six requests with limit 5 inside one
fixed window (t = 30, so window_start = 0) against a fresh store: the
check always sees no counter row, every conditional increment is
rejected with ValidationException because its update expression names
the reserved word ttl unaliased, the middleware swallows that error
(fail open), and all six requests are allowed with the full limit as
remaining — no counter row is ever written and the sixth request is not
rejected with 429 as the claim requires. -/
theorem c4_sixth_request_not_rejected :
    increment_rate_limit [] "key-1" 0 5 = .validationError
    ∧ rateLimitCalls 6 [] "key-1" 5 60 30 = (List.replicate 6 (.allowed 5 60), []) := by
  refine ⟨by decide, by decide⟩

/-! ## C5: fail-open checks -/

/-- C5. A ClientError on the check's backend read fails open: the check
allows the request and reports the full configured limit as remaining,
and the middleware then allows the request, returning that configured
limit as the remaining quota with the store untouched — a check-path
backend error is never surfaced to the caller as a rejection or
failure. -/
theorem c5_check_fails_open :
    (∀ (limit window_seconds current_time : Nat),
       check_rate_limit .clientError limit window_seconds current_time
         = (true, limit, current_time / window_seconds * window_seconds + window_seconds))
    ∧ (∀ (rs : RateStore) (api_key : String) (limit window_seconds current_time : Nat),
         rate_limit_middleware_core .clientError rs api_key limit window_seconds current_time
           = (.allowed limit (current_time / window_seconds * window_seconds + window_seconds),
              rs)) := by
  constructor
  · intro limit w t
    rfl
  · intro rs key limit w t
    rfl

/-! ## C7: cursor decoding -/

/-- The concrete continuation key of the C7 witness. -/
def c7Key : Json :=
  .obj (.cons "event_id" (.str "ev-7")
       (.cons "created_at" (.str "2024-03-01T00:00:00Z")
       (.cons "status" (.str "pending") .nil)))

/-- C7 (amended). decode_cursor yields the decoded JSON value or
signals InvalidCursor (a ValueError) on malformed base64, invalid UTF-8
or unparsable JSON; the listing consumes the InvalidCursor signal by
restarting from page one — no crash on that path — and a decoded value
is used as the start key, so a well-formed continuation key resumes the
query while any other decoded value reaches the store query and its
rejection is not caught. A malformed cursor indeed signals
InvalidCursor, and an encoded key decodes back to itself as a
well-formed key. -/
theorem c7_cursor_decode_handling :
    (∀ (s : Store) (limit : Nat) (c : String) (f : InboxFilters),
       decode_cursor c = .invalidCursor →
       query_pending_events s limit (some c) f = queryPendingFrom s Option.none limit f)
    ∧ (∀ (s : Store) (limit : Nat) (c : String) (f : InboxFilters) (k : Json),
         decode_cursor c = .ok k →
         query_pending_events s limit (some c) f = queryPendingFrom s (some k) limit f)
    ∧ (∀ (s : Store) (limit : Nat) (c : String) (f : InboxFilters) (k : Json),
         decode_cursor c = .ok k → validStartKey k = false →
         query_pending_events s limit (some c) f = QueryResult.paramError)
    ∧ decode_cursor "not-valid-base64!!!" = .invalidCursor
    ∧ decode_cursor (encode_cursor c7Key) = .ok c7Key
    ∧ validStartKey c7Key = true := by
  have hok : ∀ (s : Store) (limit : Nat) (c : String) (f : InboxFilters) (k : Json),
      decode_cursor c = .ok k →
      query_pending_events s limit (some c) f = queryPendingFrom s (some k) limit f := by
    intro s limit c f k h
    unfold query_pending_events
    simp [h]
  refine ⟨?_, hok, ?_, by decide, by decide, by decide⟩
  · intro s limit c f h
    unfold query_pending_events
    simp [h]
  · intro s limit c f k h hbad
    rw [hok s limit c f k h]
    simp [queryPendingFrom, hbad]

/-- The inbox query of the C7 counterexample: default parameters with
the decodable non-key cursor. -/
def c7BadQuery : InboxQuery :=
  { limit := 50, cursor := some "NQ==", source := Option.none, event_type := Option.none,
    created_after := Option.none, created_before := Option.none, priority := Option.none,
    metadata_key := Option.none, metadata_value := Option.none }

/-- C7 (counterexample). The cursor string NQ== — valid base64 of the
JSON text 5 — decodes with no InvalidCursor signal to a value that is
not a continuation key; query_pending_events passes it to the store
query as the start key, the store's rejection is not caught, and the
listing fails with an internal error (HTTP 500) instead of restarting
from page one — so it is not true that no cursor string crashes the
listing. -/
theorem c7_counterexample :
    decode_cursor "NQ==" = .ok (.num 5)
    ∧ validStartKey (.num 5) = false
    ∧ query_pending_events c2Store 50 (some "NQ==") InboxFilters.noFilters
        = QueryResult.paramError
    ∧ get_inbox "key-A" c7BadQuery c2Store = .internalError := by
  refine ⟨by decide, rfl, by decide, by decide⟩

/-- Witness for the amended C7: the InvalidCursor branch at a concrete
malformed cursor (listing equals the page-one listing), the resume
branch at a well-formed encoded key, and the uncaught-rejection branch
at the decodable non-key cursor. -/
theorem c7_witness :
    query_pending_events c2Store 50 (some "not-valid-base64!!!") InboxFilters.noFilters
        = queryPendingFrom c2Store Option.none 50 InboxFilters.noFilters
    ∧ query_pending_events c2Store 50 (some (encode_cursor c7Key)) InboxFilters.noFilters
        = queryPendingFrom c2Store (some c7Key) 50 InboxFilters.noFilters
    ∧ query_pending_events c2Store 50 (some "NQ==") InboxFilters.noFilters
        = QueryResult.paramError :=
  ⟨c7_cursor_decode_handling.1 c2Store 50 "not-valid-base64!!!" InboxFilters.noFilters
     (by decide),
   c7_cursor_decode_handling.2.1 c2Store 50 (encode_cursor c7Key) InboxFilters.noFilters c7Key
     (by decide),
   c7_cursor_decode_handling.2.2.1 c2Store 50 "NQ==" InboxFilters.noFilters (.num 5)
     (by decide) rfl⟩

/-! ## C9: the webhook signature -/

/-- Serialized payload of the C9 mutation example. -/
def c9Payload : String := jsonDumps (.obj (.cons "a" (.num 1) .nil))

/-- c9Payload with a single byte changed. -/
def c9Mutated : String := "\x7b\"a\": 2\x7d"

set_option maxRecDepth 100000 in
/-- C9. Both delivery paths carry hex(HMAC-SHA256(JSON(snapshot),
secret)) in the signature header — the queued path's header equals that
construction, and the synchronous test path computes the identical
generate_webhook_signature; recomputing the HMAC over the received
payload with the same secret verifies it for every payload and secret;
and the concrete one-byte mutation of the example payload makes
verification fail. -/
theorem c9_signature_roundtrip :
    (∀ (w : WebhookRec) (ed : Json) (ts : String) (resp : HttpResult),
       (deliver_webhook_sync w ed ts resp).1.signatureHeader
         = bytesToHex (hmacSha256 (utf8Encode w.secret) (utf8Encode (jsonDumps ed))))
    ∧ (∀ (w : WebhookRec) (te : Json),
        test_webhook_signature w te = generate_webhook_signature (jsonDumps te) w.secret)
    ∧ (∀ (payload secret : String),
        verify_webhook_signature payload (generate_webhook_signature payload secret) secret
          = true)
    ∧ c9Payload = "\x7b\"a\": 1\x7d"
    ∧ verify_webhook_signature c9Mutated (generate_webhook_signature c9Payload "whsec_k")
        "whsec_k" = false := by
  refine ⟨fun w ed ts resp => rfl, fun w te => rfl, ?_, by decide, by decide⟩
  intro payload secret
  simp [verify_webhook_signature]

/-! ## C10: caller-independence of the listing -/

/-- C10. The inbox listing is a function of the store and the query
parameters only: two callers with different API keys and the same
parameters receive identical responses, because the handler passes no
principal to query_pending_events and nothing in the pipeline restricts
results to the caller's events. -/
theorem c10_inbox_caller_independent :
    ∀ (keyA keyB : String) (q : InboxQuery) (s : Store),
      get_inbox keyA q s = get_inbox keyB q s :=
  fun _ _ _ _ => rfl

end TriggersAPI
